import Mathlib

/-!
Shallow embedding of the URL-shortener microservice (src/unnamed/part_000).

Instants are modelled as naturals counting milliseconds since the epoch:
the source stores ISO-8601 strings but only ever compares them through
JavaScript Date time values, which are milliseconds.  The external logging
sink calls never touch the store and swallow their own failures, so they
are not part of the state model.  The `express` routing, `uuidv4` and
`Math.random` collaborators appear as explicit parameters.
-/

/-- A coarse (country, city) pair as produced by the mock geolocation. -/
structure Location where
  country : String
  city : String
deriving DecidableEq

/-- The fixed mock location table (source lines 58 to 64). -/
def mockLocations : List Location :=
  [⟨"United States", "New York"⟩, ⟨"United Kingdom", "London"⟩,
   ⟨"Germany", "Berlin"⟩, ⟨"India", "Mumbai"⟩, ⟨"Canada", "Toronto"⟩]

/-- JavaScript ToInt32: wrap an integer into the signed 32-bit range. -/
def toInt32 (x : Int) : Int := (x + 2 ^ 31) % 2 ^ 32 - 2 ^ 31

/-- One step of the hash loop (source lines 71 to 74):
    shift-left-5 minus the accumulator plus the character code, where both
    the shift and the final bitwise-and force signed 32-bit wrapping. -/
def hashStep (a : Int) (code : Nat) : Int :=
  toInt32 (toInt32 (a * 32) - a + code)

/-- The UTF-16 code units of one character, as charCodeAt sees them. -/
def utf16Units (c : Char) : List Nat :=
  if c.toNat < 65536 then [c.toNat]
  else [55296 + (c.toNat - 65536) / 1024, 56320 + (c.toNat - 65536) % 1024]

/-- The sequence of character codes the hash folds over. -/
def jsCharCodes (s : String) : List Nat := (s.data.map utf16Units).flatten

/-- The accumulated hash of the address string (source lines 71 to 74). -/
def jsHash (s : String) : Int := (jsCharCodes s).foldl hashStep 0

/-- getLocationFromIP (source lines 56 to 77).  The argument is optional
    because the call site can pass an undefined value; the falsy test on
    the first branch is also true on the empty string. -/
def getLocationFromIP (ip : Option String) : Location :=
  match ip with
  | none => ⟨"Unknown", "Unknown"⟩
  | some s =>
    if s = "" ∨ s = "Unknown" ∨ s = "::1" ∨ s = "127.0.0.1" then ⟨"Unknown", "Unknown"⟩
    else mockLocations.getD ((jsHash s).natAbs % mockLocations.length) ⟨"Unknown", "Unknown"⟩

/-- The 62-character alphabet of generateShortCode (source line 22). -/
def shortCodeChars : List Char :=
  "abcdefghijklmnopqrstuvwxyzABCDEFGHIJKLMNOPQRSTUVWXYZ0123456789".data

/-- generateShortCode (source lines 21 to 28): six characters drawn from
    the 62-symbol alphabet; the six random draws made by the source are
    passed in explicitly. -/
def generateShortCode (r : Fin 6 → Fin 62) : String :=
  String.mk ((List.finRange 6).map fun i => shortCodeChars.getD (r i).val 'a')

/-- isValidShortcode (source lines 33 to 35): alphanumeric, length 3 to 20. -/
def isValidShortcode (s : String) : Bool :=
  decide (3 ≤ s.length) && decide (s.length ≤ 20) && s.data.all Char.isAlphanum

/-- calculateExpiry (source lines 40 to 44), on millisecond instants. -/
def calculateExpiry (now : Nat) (validityMinutes : Nat) : Nat :=
  now + validityMinutes * 60 * 1000

/-- isExpired (source lines 49 to 51): strictly after the expiry instant. -/
def isExpired (now expiry : Nat) : Bool := decide (expiry < now)

/-- One recorded click (source lines 284 to 291).  Note that the raw ip
    string is a field of the stored event. -/
structure ClickEvent where
  timestamp : Nat
  userAgent : String
  referer : String
  ip : String
  location : Location
deriving DecidableEq

/-- One stored alias record (source lines 155 to 163). -/
structure AliasRecord where
  id : String
  originalUrl : String
  shortcode : String
  expiry : Nat
  createdAt : Nat
  clickCount : Nat
  clicks : List ClickEvent
deriving DecidableEq

/-- urlDatabase (source line 16), a Map from shortcode to record, modelled
    as an association list keyed on the shortcode. -/
abbrev UrlDB := List (String × AliasRecord)

/-- Map.get on the url database. -/
def dbLookup : UrlDB → String → Option AliasRecord
  | [], _ => none
  | (k', v) :: rest, k => if k' = k then some v else dbLookup rest k

/-- Map.has on the url database. -/
def dbContains (db : UrlDB) (k : String) : Bool := (dbLookup db k).isSome

/-- Map.set on the url database: replace the binding when the key is
    present, otherwise append it. -/
def dbSet : UrlDB → String → AliasRecord → UrlDB
  | [], k, v => [(k, v)]
  | (k', v') :: rest, k, v =>
      if k' = k then (k, v) :: rest else (k', v') :: dbSet rest k v

/-- The parts of the incoming request that the redirect handler reads. -/
structure ReqCtx where
  userAgent : Option String
  referer : Option String
  ip : Option String
  remoteAddress : Option String
deriving DecidableEq

/-- JavaScript or-else on two possibly absent strings; the empty string is
    falsy and falls through. -/
def jsOrOpt (a b : Option String) : Option String :=
  match a with
  | some s => if s = "" then b else some s
  | none => b

/-- JavaScript or-else against a string default. -/
def jsOrStr (a : Option String) (d : String) : String :=
  match a with
  | some s => if s = "" then d else s
  | none => d

/-- The clickData object built on a successful redirect
    (source lines 284 to 291). -/
def mkClickData (now : Nat) (req : ReqCtx) : ClickEvent :=
  { timestamp := now
    userAgent := jsOrStr req.userAgent "Unknown"
    referer := jsOrStr req.referer "Direct"
    ip := jsOrStr (jsOrOpt req.ip req.remoteAddress) "Unknown"
    location := getLocationFromIP (jsOrOpt req.ip req.remoteAddress) }

/-- Outcome of the redirect route (source lines 254 to 313):
    HTTP 400, 404, 410 and 302 respectively. -/
inductive ResolveResult where
  | invalidFormat
  | notFound
  | expired
  | redirect (url : String)
deriving DecidableEq

/-- The redirect handler (source lines 254 to 313). -/
def resolveOp (db : UrlDB) (now : Nat) (req : ReqCtx) (code : String) :
    ResolveResult × UrlDB :=
  if isValidShortcode code = false then (.invalidFormat, db)
  else
    match dbLookup db code with
    | none => (.notFound, db)
    | some urlEntry =>
      if isExpired now urlEntry.expiry then (.expired, db)
      else
        let clickData := mkClickData now req
        let updated : AliasRecord :=
          { urlEntry with
              clickCount := urlEntry.clickCount + 1
              clicks := urlEntry.clicks ++ [clickData] }
        (.redirect urlEntry.originalUrl, dbSet db code updated)

/-- One entry of clickDetails (source lines 228 to 233): exactly the four
    projected fields; the stored ip is dropped. -/
structure ClickDetail where
  timestamp : Nat
  referer : String
  userAgent : String
  location : Location
deriving DecidableEq

/-- The projection applied to each stored click (source lines 228 to 233). -/
def toClickDetail (c : ClickEvent) : ClickDetail :=
  ⟨c.timestamp, c.referer, c.userAgent, c.location⟩

/-- The statistics response body (source lines 223 to 234). -/
structure Statistics where
  totalClicks : Nat
  originalUrl : String
  creationDate : Nat
  expiryDate : Nat
  clickDetails : List ClickDetail
deriving DecidableEq

/-- Outcome of the statistics route: HTTP 400, 404 and 200 respectively. -/
inductive StatsResult where
  | invalidFormat
  | notFound
  | ok (s : Statistics)
deriving DecidableEq

/-- The statistics handler (source lines 196 to 248); it never consults the
    clock and never writes to the store. -/
def getStatistics (db : UrlDB) (code : String) : StatsResult :=
  if isValidShortcode code = false then .invalidFormat
  else
    match dbLookup db code with
    | none => .notFound
    | some urlEntry =>
      .ok { totalClicks := urlEntry.clickCount
            originalUrl := urlEntry.originalUrl
            creationDate := urlEntry.createdAt
            expiryDate := urlEntry.expiry
            clickDetails := urlEntry.clicks.map toClickDetail }

/-- The statistics handler viewed as a state transition: the store comes
    back untouched. -/
def getStatisticsOp (db : UrlDB) (code : String) : StatsResult × UrlDB :=
  (getStatistics db code, db)

/-- Outcome of the creation route (source lines 83 to 190): the five
    client errors (HTTP 400 and 409), success (HTTP 201), and diverges,
    which marks the one run with no normal outcome: the generation loop
    on source lines 146 to 148 spinning on an endless collision streak.
    The handler has no retry cap and no internal-error fallback for it. -/
inductive CreateResult where
  | missingUrl
  | invalidUrl
  | invalidValidity
  | invalidShortcodeFormat
  | shortcodeExists
  | created (code : String) (expiry : Nat)
  | diverges
deriving DecidableEq

/-- Source lines 112 to 122: a supplied validity must be a positive
    integer, otherwise the default is 30.  A JSON number is modelled as a
    rational; integer-ness is denominator one. -/
def checkValidity : Option Rat → Option Nat
  | none => some 30
  | some v => if v.den = 1 ∧ 0 < v then some v.num.toNat else none

/-- JavaScript truthiness of an optional string: undefined and the empty
    string are both falsy. -/
def jsTruthy : Option String → Option String
  | none => none
  | some s => if s = "" then none else some s

/-- The generation loop (source lines 146 to 148): draw a code, retry
    while the store already has it.  The list argument is the stream of
    random draws the loop consumes; none models the loop still running
    when the stream is exhausted. -/
def genLoop (db : UrlDB) : List (Fin 6 → Fin 62) → Option String
  | [] => none
  | r :: rest =>
    let c := generateShortCode r
    if dbContains db c then genLoop db rest else some c

/-- The fresh record stored on success (source lines 155 to 163); newId
    stands for the uuidv4 call. -/
def newRecord (newId url code : String) (now m : Nat) : AliasRecord :=
  { id := newId, originalUrl := url, shortcode := code,
    expiry := calculateExpiry now m, createdAt := now,
    clickCount := 0, clicks := [] }

/-- The creation handler (source lines 83 to 190).  isURL abstracts the
    external validator.isURL check with require_protocol; draws feeds the
    generation loop. -/
def createShortUrl (isURL : String → Bool) (db : UrlDB) (now : Nat)
    (newId : String) (draws : List (Fin 6 → Fin 62)) (url : Option String)
    (validity : Option Rat) (shortcode : Option String) :
    CreateResult × UrlDB :=
  match jsTruthy url with
  | none => (.missingUrl, db)
  | some u =>
    if isURL u = false then (.invalidUrl, db)
    else
      match checkValidity validity with
      | none => (.invalidValidity, db)
      | some m =>
        match jsTruthy shortcode with
        | some sc =>
          if isValidShortcode sc = false then (.invalidShortcodeFormat, db)
          else if dbContains db sc then (.shortcodeExists, db)
          else (.created sc (calculateExpiry now m), dbSet db sc (newRecord newId u sc now m))
        | none =>
          match genLoop db draws with
          | none => (.diverges, db)
          | some c => (.created c (calculateExpiry now m), dbSet db c (newRecord newId u c now m))

/-- The stores reachable from the initially empty urlDatabase through the
    two mutating handlers.  The statistics route never changes the store. -/
inductive Reachable : UrlDB → Prop where
  | init : Reachable []
  | createStep (isURL : String → Bool) (db : UrlDB) (now : Nat) (newId : String)
      (draws : List (Fin 6 → Fin 62)) (url : Option String) (validity : Option Rat)
      (shortcode : Option String) :
      Reachable db →
      Reachable (createShortUrl isURL db now newId draws url validity shortcode).2
  | resolveStep (db : UrlDB) (now : Nat) (req : ReqCtx) (code : String) :
      Reachable db → Reachable (resolveOp db now req code).2

/-- List-level check that one list starts with another, used by the sample
    url checker below. -/
def listStartsWith : List Char → List Char → Bool
  | _, [] => true
  | [], _ :: _ => false
  | c :: cs, d :: ds => if c = d then listStartsWith cs ds else false

/-- A concrete stand-in for the external url validator, used only to
    instantiate theorems at specific inputs; every theorem below holds for
    an arbitrary checker. -/
def simpleIsURL (s : String) : Bool :=
  listStartsWith s.data "http://".data || listStartsWith s.data "https://".data

/-- A draw function that always picks index 0 of the alphabet. -/
def g0 : Fin 6 → Fin 62 := fun _ => 0

/-- A draw function that always picks index 1 of the alphabet. -/
def g1 : Fin 6 → Fin 62 := fun _ => 1

/-- A request with no headers and no address. -/
def req0 : ReqCtx := ⟨none, none, none, none⟩

/-- A request carrying a user agent and a concrete client address. -/
def req8 : ReqCtx := ⟨some "UA1", none, some "8.8.8.8", none⟩

/-- Like req8 but from a different address that derives the same mock
    location. -/
def req9 : ReqCtx := ⟨some "UA1", none, some "1.2.3.4", none⟩

/-- The store after one successful creation with custom code abc. -/
def db1 : UrlDB :=
  (createShortUrl simpleIsURL [] 0 "id1" [] (some "http://example.com") none (some "abc")).2

/-- The record stored in db1. -/
def rec1 : AliasRecord := ⟨"id1", "http://example.com", "abc", 1800000, 0, 0, []⟩

/-- The store after one successful resolution of abc at instant 100. -/
def db2 : UrlDB := (resolveOp db1 100 req0 "abc").2

/-- The record stored in db2. -/
def rec2 : AliasRecord := { rec1 with clickCount := 1, clicks := [mkClickData 100 req0] }

/-- A one-record store whose only key collides with the all-index-0 draw. -/
def dbA : UrlDB := [("aaaaaa", rec1)]

/-! ## Store lemmas -/

theorem dbLookup_dbSet_self (db : UrlDB) (k : String) (v : AliasRecord) :
    dbLookup (dbSet db k v) k = some v := by
  induction db with
  | nil => simp [dbSet, dbLookup]
  | cons p rest ih =>
    obtain ⟨k', v'⟩ := p
    by_cases h : k' = k
    · simp [dbSet, dbLookup, h]
    · simp [dbSet, dbLookup, h, ih]

theorem dbLookup_dbSet_ne (db : UrlDB) (k : String) (v : AliasRecord) (k' : String)
    (h : k' ≠ k) : dbLookup (dbSet db k v) k' = dbLookup db k' := by
  have h' : ¬ k = k' := fun hh => h hh.symm
  induction db with
  | nil => simp [dbSet, dbLookup, h']
  | cons p rest ih =>
    obtain ⟨k'', v''⟩ := p
    by_cases hk : k'' = k
    · subst hk
      simp [dbSet, dbLookup, h']
    · by_cases hk' : k'' = k'
      · simp [dbSet, dbLookup, hk, hk', h]
      · simp [dbSet, dbLookup, hk, hk', ih]

theorem dbContains_false_lookup (db : UrlDB) (k : String)
    (h : dbContains db k = false) : dbLookup db k = none := by
  cases hl : dbLookup db k with
  | none => rfl
  | some r => simp [dbContains, hl] at h

/-! ## Resolve-path case equations -/

theorem resolve_eq_invalid (db : UrlDB) (now : Nat) (req : ReqCtx) (code : String)
    (h : isValidShortcode code = false) :
    resolveOp db now req code = (.invalidFormat, db) := by
  simp [resolveOp, h]

theorem resolve_eq_notFound (db : UrlDB) (now : Nat) (req : ReqCtx) (code : String)
    (h : isValidShortcode code = true) (hl : dbLookup db code = none) :
    resolveOp db now req code = (.notFound, db) := by
  simp [resolveOp, h, hl]

theorem resolve_eq_expired (db : UrlDB) (now : Nat) (req : ReqCtx) (code : String)
    (r : AliasRecord) (h : isValidShortcode code = true)
    (hl : dbLookup db code = some r) (he : r.expiry < now) :
    resolveOp db now req code = (.expired, db) := by
  simp [resolveOp, h, hl, isExpired, he]

theorem resolve_eq_success (db : UrlDB) (now : Nat) (req : ReqCtx) (code : String)
    (r : AliasRecord) (h : isValidShortcode code = true)
    (hl : dbLookup db code = some r) (he : now ≤ r.expiry) :
    resolveOp db now req code =
      (.redirect r.originalUrl,
       dbSet db code
         { r with clickCount := r.clickCount + 1,
                  clicks := r.clicks ++ [mkClickData now req] }) := by
  simp [resolveOp, h, hl, isExpired, Nat.not_lt.mpr he]

theorem resolve_shape (db : UrlDB) (now : Nat) (req : ReqCtx) (code : String) :
    (resolveOp db now req code).2 = db ∨
    ∃ r, dbLookup db code = some r ∧
      (resolveOp db now req code).2 =
        dbSet db code
          { r with clickCount := r.clickCount + 1,
                   clicks := r.clicks ++ [mkClickData now req] } := by
  by_cases hv : isValidShortcode code = true
  · cases hl : dbLookup db code with
    | none => left; rw [resolve_eq_notFound db now req code hv hl]
    | some r =>
      by_cases he : now ≤ r.expiry
      · right
        refine ⟨r, rfl, ?_⟩
        rw [resolve_eq_success db now req code r hv hl he]
      · left; rw [resolve_eq_expired db now req code r hv hl (Nat.not_le.mp he)]
  · left; rw [resolve_eq_invalid db now req code (by simpa using hv)]

/-! ## Creation-path case equations -/

theorem create_eq_missing (i : String → Bool) (db : UrlDB) (now : Nat) (id : String)
    (dr : List (Fin 6 → Fin 62)) (url : Option String) (v : Option Rat) (sc : Option String)
    (h : jsTruthy url = none) :
    createShortUrl i db now id dr url v sc = (.missingUrl, db) := by
  simp [createShortUrl, h]

theorem create_eq_invalidUrl (i : String → Bool) (db : UrlDB) (now : Nat) (id : String)
    (dr : List (Fin 6 → Fin 62)) (url : Option String) (v : Option Rat) (sc : Option String)
    (u : String) (hu : jsTruthy url = some u) (hi : i u = false) :
    createShortUrl i db now id dr url v sc = (.invalidUrl, db) := by
  simp [createShortUrl, hu, hi]

theorem create_eq_invalidValidity (i : String → Bool) (db : UrlDB) (now : Nat) (id : String)
    (dr : List (Fin 6 → Fin 62)) (url : Option String) (v : Option Rat) (sc : Option String)
    (u : String) (hu : jsTruthy url = some u) (hi : i u = true)
    (hv : checkValidity v = none) :
    createShortUrl i db now id dr url v sc = (.invalidValidity, db) := by
  simp [createShortUrl, hu, hi, hv]

theorem create_eq_badFormat (i : String → Bool) (db : UrlDB) (now : Nat) (id : String)
    (dr : List (Fin 6 → Fin 62)) (url : Option String) (v : Option Rat) (sc : Option String)
    (u : String) (m : Nat) (s : String) (hu : jsTruthy url = some u) (hi : i u = true)
    (hv : checkValidity v = some m) (hs : jsTruthy sc = some s)
    (hf : isValidShortcode s = false) :
    createShortUrl i db now id dr url v sc = (.invalidShortcodeFormat, db) := by
  simp [createShortUrl, hu, hi, hv, hs, hf]

theorem create_eq_conflict (i : String → Bool) (db : UrlDB) (now : Nat) (id : String)
    (dr : List (Fin 6 → Fin 62)) (url : Option String) (v : Option Rat) (sc : Option String)
    (u : String) (m : Nat) (s : String) (hu : jsTruthy url = some u) (hi : i u = true)
    (hv : checkValidity v = some m) (hs : jsTruthy sc = some s)
    (hf : isValidShortcode s = true) (hc : dbContains db s = true) :
    createShortUrl i db now id dr url v sc = (.shortcodeExists, db) := by
  simp [createShortUrl, hu, hi, hv, hs, hf, hc]

theorem create_eq_custom (i : String → Bool) (db : UrlDB) (now : Nat) (id : String)
    (dr : List (Fin 6 → Fin 62)) (url : Option String) (v : Option Rat) (sc : Option String)
    (u : String) (m : Nat) (s : String) (hu : jsTruthy url = some u) (hi : i u = true)
    (hv : checkValidity v = some m) (hs : jsTruthy sc = some s)
    (hf : isValidShortcode s = true) (hc : dbContains db s = false) :
    createShortUrl i db now id dr url v sc =
      (.created s (calculateExpiry now m), dbSet db s (newRecord id u s now m)) := by
  simp [createShortUrl, hu, hi, hv, hs, hf, hc]

theorem create_eq_genNone (i : String → Bool) (db : UrlDB) (now : Nat) (id : String)
    (dr : List (Fin 6 → Fin 62)) (url : Option String) (v : Option Rat) (sc : Option String)
    (u : String) (m : Nat) (hu : jsTruthy url = some u) (hi : i u = true)
    (hv : checkValidity v = some m) (hs : jsTruthy sc = none)
    (hg : genLoop db dr = none) :
    createShortUrl i db now id dr url v sc = (.diverges, db) := by
  simp [createShortUrl, hu, hi, hv, hs, hg]

theorem create_eq_genSome (i : String → Bool) (db : UrlDB) (now : Nat) (id : String)
    (dr : List (Fin 6 → Fin 62)) (url : Option String) (v : Option Rat) (sc : Option String)
    (u : String) (m : Nat) (c : String) (hu : jsTruthy url = some u) (hi : i u = true)
    (hv : checkValidity v = some m) (hs : jsTruthy sc = none)
    (hg : genLoop db dr = some c) :
    createShortUrl i db now id dr url v sc =
      (.created c (calculateExpiry now m), dbSet db c (newRecord id u c now m)) := by
  simp [createShortUrl, hu, hi, hv, hs, hg]

/-! ## Generation loop and validity helpers -/

theorem generateShortCode_valid (r : Fin 6 → Fin 62) :
    isValidShortcode (generateShortCode r) = true := by
  have hall : ∀ n, n < 62 → Char.isAlphanum (shortCodeChars.getD n 'a') = true := by decide
  unfold isValidShortcode generateShortCode
  have hlen : (String.mk ((List.finRange 6).map
      fun i => shortCodeChars.getD (r i).val 'a')).length = 6 := by
    simp [String.length]
  rw [hlen]
  simp only [Bool.and_eq_true, decide_eq_true_eq, List.all_eq_true]
  refine ⟨⟨by omega, by omega⟩, ?_⟩
  intro c hc
  simp only [String.data, List.mem_map, List.mem_finRange] at hc
  obtain ⟨i, -, rfl⟩ := hc
  exact hall (r i).val (r i).isLt

theorem genLoop_fresh (db : UrlDB) :
    ∀ draws c, genLoop db draws = some c →
      dbContains db c = false ∧ isValidShortcode c = true := by
  intro draws
  induction draws with
  | nil => intro c h; simp [genLoop] at h
  | cons r rest ih =>
    intro c h
    by_cases hc : dbContains db (generateShortCode r) = true
    · rw [genLoop, if_pos (by simpa using hc)] at h
      exact ih c h
    · rw [genLoop, if_neg (by simpa using hc)] at h
      cases h
      exact ⟨by simpa using hc, generateShortCode_valid r⟩

theorem genLoop_skips (db : UrlDB) (colls : List (Fin 6 → Fin 62)) (rf : Fin 6 → Fin 62)
    (hc : ∀ r ∈ colls, dbContains db (generateShortCode r) = true)
    (hf : dbContains db (generateShortCode rf) = false) :
    genLoop db (colls ++ [rf]) = some (generateShortCode rf) := by
  induction colls with
  | nil => simp [genLoop, hf]
  | cons r rest ih =>
    have hr := hc r (List.mem_cons_self r rest)
    rw [List.cons_append, genLoop, if_pos (by simpa using hr)]
    exact ih fun x hx => hc x (List.mem_cons_of_mem r hx)

theorem checkValidity_pos (v : Option Rat) (m : Nat) (h : checkValidity v = some m) :
    0 < m := by
  cases v with
  | none =>
    simp [checkValidity] at h
    omega
  | some q =>
    by_cases hq : q.den = 1 ∧ 0 < q
    · rw [checkValidity, if_pos hq] at h
      cases h
      have : 0 < q.num := Rat.num_pos.mpr hq.2
      omega
    · rw [checkValidity, if_neg hq] at h
      cases h

/-- Every run of the creation handler either leaves the store untouched or
    inserts, at a key that is well-formed and previously unbound, a fresh
    record with zero clicks and a positive validity in minutes. -/
theorem create_shape (i : String → Bool) (db : UrlDB) (now : Nat) (id : String)
    (dr : List (Fin 6 → Fin 62)) (url : Option String) (v : Option Rat)
    (sc : Option String) :
    (createShortUrl i db now id dr url v sc).2 = db ∨
    ∃ c u m, isValidShortcode c = true ∧ dbLookup db c = none ∧ 0 < m ∧
      (createShortUrl i db now id dr url v sc).2 = dbSet db c (newRecord id u c now m) := by
  cases hu : jsTruthy url with
  | none => left; rw [create_eq_missing i db now id dr url v sc hu]
  | some u =>
    by_cases hi : i u = true
    · cases hv : checkValidity v with
      | none => left; rw [create_eq_invalidValidity i db now id dr url v sc u hu hi hv]
      | some m =>
        have hm := checkValidity_pos v m hv
        cases hs : jsTruthy sc with
        | some s =>
          by_cases hf : isValidShortcode s = true
          · by_cases hc : dbContains db s = true
            · left; rw [create_eq_conflict i db now id dr url v sc u m s hu hi hv hs hf hc]
            · right
              have hc' : dbContains db s = false := by simpa using hc
              refine ⟨s, u, m, hf, dbContains_false_lookup db s hc', hm, ?_⟩
              rw [create_eq_custom i db now id dr url v sc u m s hu hi hv hs hf hc']
          · left
            rw [create_eq_badFormat i db now id dr url v sc u m s hu hi hv hs
              (by simpa using hf)]
        | none =>
          cases hg : genLoop db dr with
          | none => left; rw [create_eq_genNone i db now id dr url v sc u m hu hi hv hs hg]
          | some c =>
            right
            obtain ⟨hfresh, hvalid⟩ := genLoop_fresh db dr c hg
            refine ⟨c, u, m, hvalid, dbContains_false_lookup db c hfresh, hm, ?_⟩
            rw [create_eq_genSome i db now id dr url v sc u m c hu hi hv hs hg]
    · left
      rw [create_eq_invalidUrl i db now id dr url v sc u hu (by simpa using hi)]

/-- In every reachable store, every key satisfies the shortcode format. -/
theorem reachable_valid (db : UrlDB) (h : Reachable db) :
    ∀ k r, dbLookup db k = some r → isValidShortcode k = true := by
  induction h with
  | init => intro k r hl; simp [dbLookup] at hl
  | createStep i db now id dr url v sc hdb ih =>
    intro k r hl
    rcases create_shape i db now id dr url v sc with heq | ⟨c, u, m, hvc, -, -, heq⟩
    · rw [heq] at hl; exact ih k r hl
    · rw [heq] at hl
      by_cases hk : k = c
      · subst hk; exact hvc
      · rw [dbLookup_dbSet_ne db c _ k hk] at hl
        exact ih k r hl
  | resolveStep db now req code hdb ih =>
    intro k r hl
    rcases resolve_shape db now req code with heq | ⟨r0, hl0, heq⟩
    · rw [heq] at hl; exact ih k r hl
    · rw [heq] at hl
      by_cases hk : k = code
      · subst hk; exact ih k r0 hl0
      · rw [dbLookup_dbSet_ne db code _ k hk] at hl
        exact ih k r hl

/-! ## Reachable sample stores for instantiations -/

theorem reach_db1 : Reachable db1 :=
  Reachable.createStep simpleIsURL [] 0 "id1" [] (some "http://example.com") none
    (some "abc") Reachable.init

theorem reach_db2 : Reachable db2 :=
  Reachable.resolveStep db1 100 req0 "abc" reach_db1

/-! ## Claim C1 -/

/-- Claim C1: for every resolve call the checks run in this order — a
    shortcode failing the format predicate is rejected with the validation
    error; else a missing record is rejected as not found; else an instant
    strictly greater than expiresAt is rejected as expired (an instant
    exactly equal to expiresAt is not expired and succeeds); otherwise
    exactly one click event with timestamp now, userAgent defaulting to
    Unknown, referer defaulting to Direct and resolver-derived location is
    appended, the click counter is incremented, and the record's
    originalUrl is returned as the redirect target. -/
theorem resolve_order_semantics (db : UrlDB) (now : Nat) (req : ReqCtx) (code : String) :
    (isValidShortcode code = false → resolveOp db now req code = (.invalidFormat, db)) ∧
    (isValidShortcode code = true → dbLookup db code = none →
      resolveOp db now req code = (.notFound, db)) ∧
    (∀ r, isValidShortcode code = true → dbLookup db code = some r → r.expiry < now →
      resolveOp db now req code = (.expired, db)) ∧
    (∀ r, isValidShortcode code = true → dbLookup db code = some r → now ≤ r.expiry →
      resolveOp db now req code =
        (.redirect r.originalUrl,
         dbSet db code
           { r with clickCount := r.clickCount + 1,
                    clicks := r.clicks ++ [mkClickData now req] }) ∧
      (mkClickData now req).timestamp = now ∧
      (req.userAgent = none → (mkClickData now req).userAgent = "Unknown") ∧
      (req.referer = none → (mkClickData now req).referer = "Direct") ∧
      (mkClickData now req).location = getLocationFromIP (jsOrOpt req.ip req.remoteAddress)) := by
  refine ⟨resolve_eq_invalid db now req code,
          resolve_eq_notFound db now req code,
          fun r => resolve_eq_expired db now req code r,
          fun r h1 h2 h3 => ⟨resolve_eq_success db now req code r h1 h2 h3, rfl, ?_, ?_, rfl⟩⟩
  · intro h; simp [mkClickData, jsOrStr, h]
  · intro h; simp [mkClickData, jsOrStr, h]

/-- Instantiation of the claim-C1 theorem at the expiry boundary: at the
    instant exactly equal to expiresAt the resolution still succeeds. -/
theorem resolve_order_semantics_inst :
    resolveOp db1 1800000 req0 "abc" =
      (.redirect rec1.originalUrl,
       dbSet db1 "abc"
         { rec1 with clickCount := rec1.clickCount + 1,
                     clicks := rec1.clicks ++ [mkClickData 1800000 req0] }) :=
  ((resolve_order_semantics db1 1800000 req0 "abc").2.2.2 rec1 (by decide) (by decide)
    (by decide)).1

/-! ## Claim C3 -/

/-- Claim C3: in every reachable store, every record's clickCount equals
    the length of its clicks sequence — both are created together as zero
    and the empty sequence, and the only mutation, successful resolution,
    increments the counter and appends exactly one event. -/
theorem clickCount_matches_clicks (db : UrlDB) (h : Reachable db) :
    ∀ k r, dbLookup db k = some r → r.clickCount = r.clicks.length := by
  induction h with
  | init => intro k r hl; simp [dbLookup] at hl
  | createStep i db now id dr url v sc hdb ih =>
    intro k r hl
    rcases create_shape i db now id dr url v sc with heq | ⟨c, u, m, -, -, -, heq⟩
    · rw [heq] at hl; exact ih k r hl
    · rw [heq] at hl
      by_cases hk : k = c
      · subst hk
        rw [dbLookup_dbSet_self] at hl
        cases hl
        simp [newRecord]
      · rw [dbLookup_dbSet_ne db c _ k hk] at hl
        exact ih k r hl
  | resolveStep db now req code hdb ih =>
    intro k r hl
    rcases resolve_shape db now req code with heq | ⟨r0, hl0, heq⟩
    · rw [heq] at hl; exact ih k r hl
    · rw [heq] at hl
      by_cases hk : k = code
      · subst hk
        rw [dbLookup_dbSet_self] at hl
        cases hl
        simp [ih k r0 hl0]
      · rw [dbLookup_dbSet_ne db code _ k hk] at hl
        exact ih k r hl

/-- Instantiation of the claim-C3 theorem on a reachable two-step store. -/
theorem clickCount_matches_clicks_inst : rec2.clickCount = rec2.clicks.length :=
  clickCount_matches_clicks db2 reach_db2 "abc" rec2 (by decide)

/-! ## Claim C10 -/

/-- Claim C10: every shortcode key present in a reachable store satisfies
    the format predicate — custom codes are format-validated before
    insertion and generated codes are six characters from the 62-symbol
    alphabet — so the format-validation step of the resolve and statistics
    routes can never reject a shortcode that exists in the store. -/
theorem stored_codes_wellformed (db : UrlDB) (h : Reachable db) :
    ∀ k r, dbLookup db k = some r →
      isValidShortcode k = true ∧
      getStatistics db k ≠ .invalidFormat ∧
      ∀ now req, (resolveOp db now req k).1 ≠ .invalidFormat := by
  intro k r hl
  have hv := reachable_valid db h k r hl
  refine ⟨hv, ?_, ?_⟩
  · simp [getStatistics, hv, hl]
  · intro now req
    by_cases he : now ≤ r.expiry
    · rw [resolve_eq_success db now req k r hv hl he]
      simp
    · rw [resolve_eq_expired db now req k r hv hl (Nat.not_le.mp he)]
      simp

/-- Instantiation of the claim-C10 theorem on a reachable store. -/
theorem stored_codes_wellformed_inst :
    isValidShortcode "abc" = true ∧
    getStatistics db1 "abc" ≠ .invalidFormat ∧
    (resolveOp db1 5 req0 "abc").1 ≠ .invalidFormat := by
  obtain ⟨h1, h2, h3⟩ := stored_codes_wellformed db1 reach_db1 "abc" rec1 (by decide)
  exact ⟨h1, h2, h3 5 req0⟩

/-! ## Claim C5 -/

/-- Claim C5: for every shortcode with a stored record in a reachable
    store, statistics retrieval succeeds with the record's totals and its
    full ordered click history (no filtering or pagination).  The handler
    takes no clock input at all, so the result is the same whether or not
    the record is past its expiresAt; the store comes back unchanged (the
    call does not count as a click), and repeating the call without an
    intervening resolve returns an identical result. -/
theorem stats_no_expiry_idempotent (db : UrlDB) (h : Reachable db) (code : String)
    (r : AliasRecord) (hl : dbLookup db code = some r) :
    getStatisticsOp db code =
      (.ok ⟨r.clickCount, r.originalUrl, r.createdAt, r.expiry, r.clicks.map toClickDetail⟩,
       db) ∧
    getStatisticsOp (getStatisticsOp db code).2 code = getStatisticsOp db code := by
  have hv := reachable_valid db h code r hl
  exact ⟨by simp [getStatisticsOp, getStatistics, hv, hl], rfl⟩

/-- Instantiation of the claim-C5 theorem on a reachable store holding one
    recorded click. -/
theorem stats_no_expiry_idempotent_inst :
    getStatisticsOp db2 "abc" =
      (.ok ⟨rec2.clickCount, rec2.originalUrl, rec2.createdAt, rec2.expiry,
            rec2.clicks.map toClickDetail⟩, db2) ∧
    getStatisticsOp (getStatisticsOp db2 "abc").2 "abc" = getStatisticsOp db2 "abc" :=
  stats_no_expiry_idempotent db2 reach_db2 "abc" rec2 (by decide)

/-! ## Claim C6 -/

/-- Claim C6: a successful resolution mutates only the clickCount and
    clicks fields of the single resolved record — the record-update
    expression keeps id, originalUrl, shortcode, createdAt and expiresAt
    verbatim, so in particular originalUrl is unchanged before and after
    expiry — every other key of the store is untouched, and no handler
    ever deletes a record: a key bound before a resolve, a create or a
    statistics call is still bound afterwards. -/
theorem resolve_frame (db : UrlDB) (now : Nat) (req : ReqCtx) (code : String) :
    (∀ u db2', resolveOp db now req code = (.redirect u, db2') →
       ∃ r, dbLookup db code = some r ∧ u = r.originalUrl ∧
         dbLookup db2' code =
           some { r with clickCount := r.clickCount + 1,
                         clicks := r.clicks ++ [mkClickData now req] } ∧
         ∀ k, k ≠ code → dbLookup db2' k = dbLookup db k) ∧
    (∀ k r', dbLookup db k = some r' →
       ∃ r'', dbLookup (resolveOp db now req code).2 k = some r'') ∧
    (∀ i id dr url v sc k r', dbLookup db k = some r' →
       ∃ r'', dbLookup (createShortUrl i db now id dr url v sc).2 k = some r'') ∧
    (getStatisticsOp db code).2 = db := by
  refine ⟨?_, ?_, ?_, rfl⟩
  · intro u db2' h
    by_cases hv : isValidShortcode code = true
    · cases hl : dbLookup db code with
      | none => rw [resolve_eq_notFound db now req code hv hl] at h; simp at h
      | some r =>
        by_cases he : now ≤ r.expiry
        · rw [resolve_eq_success db now req code r hv hl he] at h
          simp only [Prod.mk.injEq, ResolveResult.redirect.injEq] at h
          obtain ⟨h1, h2⟩ := h
          refine ⟨r, rfl, h1.symm, ?_, ?_⟩
          · rw [← h2]; exact dbLookup_dbSet_self db code _
          · intro k hk; rw [← h2]; exact dbLookup_dbSet_ne db code _ k hk
        · rw [resolve_eq_expired db now req code r hv hl (Nat.not_le.mp he)] at h
          simp at h
    · rw [resolve_eq_invalid db now req code (by simpa using hv)] at h; simp at h
  · intro k r' hl
    rcases resolve_shape db now req code with heq | ⟨r0, -, heq⟩
    · exact ⟨r', by rwa [heq]⟩
    · rw [heq]
      by_cases hk : k = code
      · subst hk; exact ⟨_, dbLookup_dbSet_self db k _⟩
      · rw [dbLookup_dbSet_ne db code _ k hk]; exact ⟨r', hl⟩
  · intro i id dr url v sc k r' hl
    rcases create_shape i db now id dr url v sc with heq | ⟨c, u', m, -, -, -, heq⟩
    · exact ⟨r', by rwa [heq]⟩
    · rw [heq]
      by_cases hk : k = c
      · subst hk; exact ⟨_, dbLookup_dbSet_self db k _⟩
      · rw [dbLookup_dbSet_ne db c _ k hk]; exact ⟨r', hl⟩

/-- Instantiation of the claim-C6 theorem on a concrete resolution: the
    updated record keeps every field but the click data, and an unrelated
    key is untouched. -/
theorem resolve_frame_inst :
    dbLookup db2 "abc" =
      some { rec1 with clickCount := rec1.clickCount + 1,
                       clicks := rec1.clicks ++ [mkClickData 100 req0] } ∧
    dbLookup db2 "zzz0" = dbLookup db1 "zzz0" := by
  obtain ⟨r, hl, -, hset, hframe⟩ :=
    (resolve_frame db1 100 req0 "abc").1 "http://example.com" db2 (by decide)
  have hr : rec1 = r := by
    have h0 : dbLookup db1 "abc" = some rec1 := by decide
    rw [h0] at hl
    exact Option.some.inj hl
  exact ⟨hr ▸ hset, hframe "zzz0" (by decide)⟩

/-! ## Claim C7 -/

/-- Claim C7: whenever creation succeeds, the stored record's expiresAt
    equals the creation instant plus the resolved validity in minutes —
    the supplied positive integer, or 30 when omitted — and is therefore
    strictly greater than the stored createdAt. -/
theorem created_expiry_positive (i : String → Bool) (db : UrlDB) (now : Nat) (id : String)
    (dr : List (Fin 6 → Fin 62)) (url : Option String) (v : Option Rat) (sc : Option String)
    (c : String) (e : Nat) (db2' : UrlDB)
    (h : createShortUrl i db now id dr url v sc = (.created c e, db2')) :
    ∃ r m, dbLookup db2' c = some r ∧ 0 < m ∧
      checkValidity v = some m ∧ (v = none → m = 30) ∧
      (∀ q, v = some q → q.den = 1 ∧ 0 < q ∧ q.num.toNat = m) ∧
      r.createdAt = now ∧ r.expiry = now + m * 60 * 1000 ∧ e = r.expiry ∧
      r.createdAt < r.expiry := by
  cases hu : jsTruthy url with
  | none => rw [create_eq_missing i db now id dr url v sc hu] at h; simp at h
  | some u =>
    by_cases hi : i u = true
    · cases hv : checkValidity v with
      | none => rw [create_eq_invalidValidity i db now id dr url v sc u hu hi hv] at h; simp at h
      | some m =>
        have hm := checkValidity_pos v m hv
        have hvn : v = none → m = 30 := by
          intro hnone; rw [hnone] at hv; simp [checkValidity] at hv; omega
        have hvq : ∀ q, v = some q → q.den = 1 ∧ 0 < q ∧ q.num.toNat = m := by
          intro q hq; rw [hq] at hv
          by_cases hcond : q.den = 1 ∧ 0 < q
          · rw [checkValidity, if_pos hcond] at hv
            cases hv
            exact ⟨hcond.1, hcond.2, rfl⟩
          · rw [checkValidity, if_neg hcond] at hv; cases hv
        cases hs : jsTruthy sc with
        | some s =>
          by_cases hf : isValidShortcode s = true
          · by_cases hc : dbContains db s = true
            · rw [create_eq_conflict i db now id dr url v sc u m s hu hi hv hs hf hc] at h
              simp at h
            · have hc' : dbContains db s = false := by simpa using hc
              rw [create_eq_custom i db now id dr url v sc u m s hu hi hv hs hf hc'] at h
              simp only [Prod.mk.injEq, CreateResult.created.injEq] at h
              obtain ⟨⟨h1, h2⟩, h3⟩ := h
              refine ⟨newRecord id u s now m, m, ?_, hm, rfl, hvn, hvq, rfl, rfl, ?_, ?_⟩
              · rw [← h3, ← h1]; exact dbLookup_dbSet_self db s _
              · exact h2.symm
              · show now < now + m * 60 * 1000
                omega
          · rw [create_eq_badFormat i db now id dr url v sc u m s hu hi hv hs
                (by simpa using hf)] at h
            simp at h
        | none =>
          cases hg : genLoop db dr with
          | none => rw [create_eq_genNone i db now id dr url v sc u m hu hi hv hs hg] at h; simp at h
          | some c0 =>
            rw [create_eq_genSome i db now id dr url v sc u m c0 hu hi hv hs hg] at h
            simp only [Prod.mk.injEq, CreateResult.created.injEq] at h
            obtain ⟨⟨h1, h2⟩, h3⟩ := h
            refine ⟨newRecord id u c0 now m, m, ?_, hm, rfl, hvn, hvq, rfl, rfl, ?_, ?_⟩
            · rw [← h3, ← h1]; exact dbLookup_dbSet_self db c0 _
            · exact h2.symm
            · show now < now + m * 60 * 1000
              omega
    · rw [create_eq_invalidUrl i db now id dr url v sc u hu (by simpa using hi)] at h
      simp at h

/-- Instantiation of the claim-C7 theorem on a creation with the default
    validity: the stored record expires strictly after its creation. -/
theorem created_expiry_positive_inst :
    rec1.createdAt < rec1.expiry ∧ rec1.expiry = 0 + 30 * 60 * 1000 := by
  obtain ⟨r, m, hl, -, hm, -, -, -, hexp, -, hlt⟩ :=
    created_expiry_positive simpleIsURL [] 0 "id1" [] (some "http://example.com") none
      (some "abc") "abc" 1800000 db1 (by decide)
  have hr : rec1 = r := by
    have h0 : dbLookup db1 "abc" = some rec1 := by decide
    rw [h0] at hl
    exact Option.some.inj hl
  have hm30 : m = 30 := by
    have : checkValidity none = some 30 := rfl
    rw [this] at hm
    exact (Option.some.inj hm).symm
  subst hm30
  exact ⟨hr ▸ hlt, hr ▸ hexp⟩

/-! ## Claim C8 -/

/-- Claim C8: the location resolver is a pure function of the address
    string (so in the embedding the same address trivially yields the same
    pair on every call): absent, empty, unknown and loopback addresses
    yield the Unknown pair, and every other address yields one of the five
    fixed (country, city) pairs, selected by the stable 32-bit string hash
    of the address modulo the table size. -/
theorem location_resolver_contract :
    getLocationFromIP none = ⟨"Unknown", "Unknown"⟩ ∧
    (∀ s, s = "" ∨ s = "Unknown" ∨ s = "::1" ∨ s = "127.0.0.1" →
      getLocationFromIP (some s) = ⟨"Unknown", "Unknown"⟩) ∧
    (∀ s, s ≠ "" → s ≠ "Unknown" → s ≠ "::1" → s ≠ "127.0.0.1" →
      getLocationFromIP (some s) =
        mockLocations.getD ((jsHash s).natAbs % mockLocations.length)
          ⟨"Unknown", "Unknown"⟩ ∧
      getLocationFromIP (some s) ∈ mockLocations) := by
  refine ⟨rfl, ?_, ?_⟩
  · intro s hs
    simp only [getLocationFromIP]
    rw [if_pos hs]
  · intro s h1 h2 h3 h4
    have hcond : ¬(s = "" ∨ s = "Unknown" ∨ s = "::1" ∨ s = "127.0.0.1") := by
      simp [h1, h2, h3, h4]
    have heq : getLocationFromIP (some s) =
        mockLocations.getD ((jsHash s).natAbs % mockLocations.length)
          ⟨"Unknown", "Unknown"⟩ := by
      simp only [getLocationFromIP]
      rw [if_neg hcond]
    have key : ∀ n : Nat, n < 5 →
        mockLocations.getD n ⟨"Unknown", "Unknown"⟩ ∈ mockLocations := by decide
    have hlen : 0 < mockLocations.length := by decide
    have hlt := Nat.mod_lt ((jsHash s).natAbs) hlen
    have h5 : mockLocations.length = 5 := rfl
    rw [h5] at hlt
    exact ⟨heq, heq ▸ key _ hlt⟩

/-- Instantiation of the claim-C8 theorem at a loopback address and at a
    concrete routable address. -/
theorem location_resolver_contract_inst :
    getLocationFromIP (some "::1") = ⟨"Unknown", "Unknown"⟩ ∧
    (getLocationFromIP (some "8.8.8.8") =
       mockLocations.getD ((jsHash "8.8.8.8").natAbs % mockLocations.length)
         ⟨"Unknown", "Unknown"⟩ ∧
     getLocationFromIP (some "8.8.8.8") ∈ mockLocations) :=
  ⟨location_resolver_contract.2.1 "::1" (by decide),
   location_resolver_contract.2.2 "8.8.8.8" (by decide) (by decide) (by decide) (by decide)⟩

/-! ## Claim C2 -/

/-- Claim C2 (amended): creation validates in order and on any failure
    leaves the store unchanged — an absent or empty url fails first with
    the missing-url validation error, before any store interaction; then a
    url rejected by the url checker fails as invalid; then a supplied
    validity that is not a positive integer fails (an omitted validity
    resolves to the default of 30); then a supplied non-empty customCode
    failing the format predicate fails with the format validation error;
    then a non-empty customCode already bound in the store fails with the
    conflict error.  The one divergence from the claim as stated: a
    supplied customCode equal to the empty string is falsy in the source's
    truthiness test, so it is treated exactly as an absent customCode and
    creation proceeds on the generation path instead of failing. -/
theorem create_validation_order (i : String → Bool) (db : UrlDB) (now : Nat)
    (id : String) (dr : List (Fin 6 → Fin 62)) (url : Option String) (v : Option Rat)
    (sc : Option String) :
    ((url = none ∨ url = some "") →
       createShortUrl i db now id dr url v sc = (.missingUrl, db)) ∧
    (∀ u, url = some u → u ≠ "" → i u = false →
       createShortUrl i db now id dr url v sc = (.invalidUrl, db)) ∧
    (∀ u q, url = some u → u ≠ "" → i u = true → v = some q → ¬(q.den = 1 ∧ 0 < q) →
       createShortUrl i db now id dr url v sc = (.invalidValidity, db)) ∧
    (checkValidity none = some 30) ∧
    (∀ u m s, url = some u → u ≠ "" → i u = true → checkValidity v = some m →
       sc = some s → s ≠ "" → isValidShortcode s = false →
       createShortUrl i db now id dr url v sc = (.invalidShortcodeFormat, db)) ∧
    (∀ u m s, url = some u → u ≠ "" → i u = true → checkValidity v = some m →
       sc = some s → s ≠ "" → isValidShortcode s = true → dbContains db s = true →
       createShortUrl i db now id dr url v sc = (.shortcodeExists, db)) ∧
    (sc = some "" →
       createShortUrl i db now id dr url v sc = createShortUrl i db now id dr url v none) := by
  refine ⟨?_, ?_, ?_, rfl, ?_, ?_, ?_⟩
  · intro h
    refine create_eq_missing i db now id dr url v sc ?_
    rcases h with rfl | rfl
    · rfl
    · simp [jsTruthy]
  · intro u hu hne hi
    exact create_eq_invalidUrl i db now id dr url v sc u (by simp [hu, jsTruthy, hne]) hi
  · intro u q hu hne hi hv hq
    refine create_eq_invalidValidity i db now id dr url v sc u
      (by simp [hu, jsTruthy, hne]) hi ?_
    simp [hv, checkValidity, hq]
  · intro u m s hu hne hi hv hs hsne hf
    exact create_eq_badFormat i db now id dr url v sc u m s
      (by simp [hu, jsTruthy, hne]) hi hv (by simp [hs, jsTruthy, hsne]) hf
  · intro u m s hu hne hi hv hs hsne hf hc
    exact create_eq_conflict i db now id dr url v sc u m s
      (by simp [hu, jsTruthy, hne]) hi hv (by simp [hs, jsTruthy, hsne]) hf hc
  · intro h
    rw [h]
    rfl

/-- Instantiation of the claim-C2 theorem: a two-character customCode is
    rejected with the format validation error and the store stays empty. -/
theorem create_validation_order_inst :
    createShortUrl simpleIsURL [] 0 "id1" [] (some "http://example.com") none (some "ab") =
      (.invalidShortcodeFormat, []) :=
  (create_validation_order simpleIsURL [] 0 "id1" [] (some "http://example.com") none
      (some "ab")).2.2.2.2.1 "http://example.com" 30 "ab" rfl (by decide) (by decide) rfl
    rfl (by decide) (by decide)

/-- Counterexample to claim C2 as stated: the empty string is a supplied
    customCode that fails the format predicate, yet creation does not fail
    with a validation error — the source's truthiness test routes it to
    the generation path, a record is created under a generated code, and
    the store changes. -/
theorem create_empty_customCode_cex :
    isValidShortcode "" = false ∧
    (createShortUrl simpleIsURL [] 0 "id1" [g0] (some "http://example.com") none
        (some "")).1 = .created "aaaaaa" 1800000 ∧
    dbLookup (createShortUrl simpleIsURL [] 0 "id1" [g0] (some "http://example.com") none
        (some "")).2 "aaaaaa" ≠ none := by
  decide

/-! ## Claim C4 -/

/-- Claim C4 (amended): when no customCode is supplied, creation obtains
    its shortcode from a retry loop that draws a code and checks the store
    for uniqueness, and the loop never yields — so creation never inserts —
    a code already present in the store; the loop stops at the first fresh
    draw after arbitrarily many collisions, and every code it yields is
    six alphanumeric characters.  Contrary to the claim as stated, the
    retries are not capped: the source has no retry bound and no
    internal-error fallback, so an endless collision streak makes the loop
    spin forever (the diverges outcome of the model). -/
theorem genLoop_no_cap (db : UrlDB) :
    (∀ draws c, genLoop db draws = some c →
       dbContains db c = false ∧ isValidShortcode c = true) ∧
    (∀ colls rf, (∀ r ∈ colls, dbContains db (generateShortCode r) = true) →
       dbContains db (generateShortCode rf) = false →
       genLoop db (colls ++ [rf]) = some (generateShortCode rf)) ∧
    (∀ i now id dr u v c e db2',
       createShortUrl i db now id dr u v none = (.created c e, db2') →
       dbContains db c = false) := by
  refine ⟨genLoop_fresh db, genLoop_skips db, ?_⟩
  intro i now id dr u v c e db2' h
  cases hu : jsTruthy u with
  | none => rw [create_eq_missing i db now id dr u v none hu] at h; simp at h
  | some u' =>
    by_cases hi : i u' = true
    · cases hv : checkValidity v with
      | none =>
        rw [create_eq_invalidValidity i db now id dr u v none u' hu hi hv] at h
        simp at h
      | some m =>
        cases hg : genLoop db dr with
        | none =>
          rw [create_eq_genNone i db now id dr u v none u' m hu hi hv rfl hg] at h
          simp at h
        | some c0 =>
          rw [create_eq_genSome i db now id dr u v none u' m c0 hu hi hv rfl hg] at h
          simp only [Prod.mk.injEq, CreateResult.created.injEq] at h
          obtain ⟨⟨h1, -⟩, -⟩ := h
          rw [← h1]
          exact (genLoop_fresh db dr c0 hg).1
    · rw [create_eq_invalidUrl i db now id dr u v none u' hu (by simpa using hi)] at h
      simp at h

/-- Instantiation of the claim-C4 theorem: after three colliding draws the
    loop still succeeds with the first fresh code. -/
theorem genLoop_no_cap_inst :
    genLoop dbA (List.replicate 3 g0 ++ [g1]) = some (generateShortCode g1) :=
  (genLoop_no_cap dbA).2.1 (List.replicate 3 g0) g1
    (fun r hr => by rw [List.eq_of_mem_replicate hr]; decide)
    (by decide)

/-- Counterexample to claim C4 as stated: a run whose first hundred draws
    all collide is not stopped by any retry cap and does not fail with an
    internal error — the loop is still spinning when the modelled draw
    stream ends — and the same run with one more fresh draw succeeds
    normally. -/
theorem genLoop_uncapped_cex :
    (createShortUrl simpleIsURL dbA 0 "id2" (List.replicate 100 g0)
        (some "http://example.com") none none).1 = .diverges ∧
    (createShortUrl simpleIsURL dbA 0 "id2" (List.replicate 100 g0 ++ [g1])
        (some "http://example.com") none none).1 = .created "bbbbbb" 1800000 := by
  decide

/-! ## Claim C9 -/

/-- Claim C9 (amended): the requester's raw network address is retained in
    the internal click record, but it is excluded from the public
    contract: every clickDetails entry returned by the statistics route is
    exactly the four-field projection (timestamp, referer, userAgent,
    location) of a stored click — never the address — and two resolutions
    that differ only in addresses with the same derived location produce
    stores that are indistinguishable through the statistics route, so the
    address influences the public statistics output only through the
    derived location. -/
theorem stats_address_scope (db : UrlDB) (now : Nat) (code : String) :
    (∀ r s, dbLookup db code = some r → getStatistics db code = .ok s →
       s.clickDetails = r.clicks.map toClickDetail) ∧
    (∀ req1 req2 : ReqCtx, req1.userAgent = req2.userAgent →
       req1.referer = req2.referer →
       getLocationFromIP (jsOrOpt req1.ip req1.remoteAddress) =
         getLocationFromIP (jsOrOpt req2.ip req2.remoteAddress) →
       ∀ c', getStatistics (resolveOp db now req1 code).2 c' =
             getStatistics (resolveOp db now req2 code).2 c') := by
  constructor
  · intro r s hl hs
    by_cases hv : isValidShortcode code = true
    · simp only [getStatistics, hv, hl] at hs
      rw [if_neg (by simp [hv]) ] at hs
      simp only [StatsResult.ok.injEq] at hs
      subst hs
      rfl
    · rw [getStatistics, if_pos (by simpa using hv)] at hs
      cases hs
  · intro req1 req2 hua href hloc c'
    have hdetail : toClickDetail (mkClickData now req1) =
        toClickDetail (mkClickData now req2) := by
      simp [toClickDetail, mkClickData, hua, href, hloc]
    by_cases hv : isValidShortcode code = true
    · cases hl : dbLookup db code with
      | none =>
        rw [resolve_eq_notFound db now req1 code hv hl,
            resolve_eq_notFound db now req2 code hv hl]
      | some r =>
        by_cases he : now ≤ r.expiry
        · rw [resolve_eq_success db now req1 code r hv hl he,
              resolve_eq_success db now req2 code r hv hl he]
          by_cases hk : c' = code
          · subst hk
            simp [getStatistics, hv, dbLookup_dbSet_self, hdetail]
          · simp [getStatistics, dbLookup_dbSet_ne db code _ c' hk]
        · rw [resolve_eq_expired db now req1 code r hv hl (Nat.not_le.mp he),
              resolve_eq_expired db now req2 code r hv hl (Nat.not_le.mp he)]
    · rw [resolve_eq_invalid db now req1 code (by simpa using hv),
          resolve_eq_invalid db now req2 code (by simpa using hv)]

set_option maxRecDepth 8192 in
/-- Instantiation of the claim-C9 theorem: resolutions from the two
    distinct addresses 8.8.8.8 and 1.2.3.4 — which derive the same mock
    location — leave stores with identical statistics for the alias, and
    the ok payload lists exactly the projected details of the clicks. -/
theorem stats_address_scope_inst :
    getStatistics (resolveOp db1 100 req8 "abc").2 "abc" =
      getStatistics (resolveOp db1 100 req9 "abc").2 "abc" ∧
    (⟨rec2.clickCount, rec2.originalUrl, rec2.createdAt, rec2.expiry,
      rec2.clicks.map toClickDetail⟩ : Statistics).clickDetails =
      rec2.clicks.map toClickDetail :=
  ⟨(stats_address_scope db1 100 "abc").2 req8 req9 rfl rfl (by decide) "abc",
   (stats_address_scope db2 100 "abc").1 rec2 _ (by decide) (by decide)⟩

set_option maxRecDepth 8192 in
/-- Counterexample to claim C9 as stated: after one resolution from
    address 8.8.8.8 the raw address has been persisted beyond location
    derivation — it sits verbatim in the stored click record. -/
theorem address_persisted_cex :
    (dbLookup (resolveOp db1 100 req8 "abc").2 "abc").map
        (fun r => r.clicks.map fun c => c.ip) = some ["8.8.8.8"] := by
  decide
